import Mathlib

/-!
Verification of the social-post generation pipeline.

The development shallowly embeds the pipeline's data model and operations:

* `PostContent`, `PostImage`, `PostResponse`, `BrandHero` mirror the pydantic
  models of `app/api/models.py` (post text is a `List Char`, matching Python's
  view of a `str` as a sequence of code points; `created_at` is an abstract
  tick).
* Calls to the external generation services are modelled by explicit oracle
  values of type `Except String _`: `Except.error e` stands for the call
  raising an exception with message `e`, `Except.ok v` for a successful
  result `v`.  Prompt strings do not influence any control flow and are not
  reproduced verbatim.
* Cooperative (asyncio) execution is modelled by explicit event traces:
  scheduling a coroutine and its completion become `dispatch`/`settle`
  events, and the sequential orchestration loop becomes a deterministic
  trace of `image_start`/`image_end`/`emit` events.
-/

/-- Content of a Facebook post (`PostContent` in `app/api/models.py`).
The text is the sequence of characters of the Python `str`. -/
structure PostContent where
  text : List Char
  hashtags : List String
  call_to_action : Option String
  deriving DecidableEq, Repr

/-- Image for a Facebook post (`PostImage` in `app/api/models.py`). -/
structure PostImage where
  image_url : String
  description : String
  prompt_used : Option String
  deriving DecidableEq, Repr

/-- A generated post (`PostResponse` in `app/api/models.py`).  The
`inspiration` dict is modelled as an ordered association list of string
entries, which is how the source populates it.  `created_at` is an
abstract timestamp. -/
structure PostResponse where
  id : String
  content : PostContent
  image : Option PostImage
  inspiration : Option (List (String × String))
  created_at : Nat
  deriving DecidableEq, Repr

/-- Brand hero information (`BrandHero` in `app/api/models.py`). -/
structure BrandHero where
  name : String
  appearance : String
  personality : String
  backstory : String
  values : List String
  tone_of_voice : String
  deriving DecidableEq, Repr

/-- `OrchestratorAgent._apply_post_guardrails` (`app/agents/orchestrator.py`,
lines 403-432).  The three rules are applied in source order: truncate text
over 280 characters to the first 277 plus `"..."`; replace an empty hashtag
list by `["#post"]`; keep only the first 5 hashtags. -/
def OrchestratorAgent.apply_post_guardrails (post : PostResponse) : PostResponse :=
  let text1 :=
    if post.content.text.length > 280 then
      post.content.text.take 277 ++ ['.', '.', '.']
    else post.content.text
  let tags1 :=
    if post.content.hashtags.length = 0 then ["#post"] else post.content.hashtags
  let tags2 := if tags1.length > 5 then tags1.take 5 else tags1
  { post with content := { post.content with text := text1, hashtags := tags2 } }

lemma apply_post_guardrails_text_le (post : PostResponse) :
    (OrchestratorAgent.apply_post_guardrails post).content.text.length ≤ 280 := by
  unfold OrchestratorAgent.apply_post_guardrails
  dsimp only
  split
  · simp [List.length_take]
  · omega

lemma apply_post_guardrails_tags_ge (post : PostResponse) :
    1 ≤ (OrchestratorAgent.apply_post_guardrails post).content.hashtags.length := by
  unfold OrchestratorAgent.apply_post_guardrails
  dsimp only
  split_ifs <;> first | decide | omega | (simp [List.length_take] <;> omega)

lemma apply_post_guardrails_tags_le (post : PostResponse) :
    (OrchestratorAgent.apply_post_guardrails post).content.hashtags.length ≤ 5 := by
  unfold OrchestratorAgent.apply_post_guardrails
  dsimp only
  split_ifs <;> first | decide | omega | (simp [List.length_take] <;> omega)

lemma apply_post_guardrails_fixed (post : PostResponse)
    (h1 : post.content.text.length ≤ 280)
    (h2 : 1 ≤ post.content.hashtags.length)
    (h3 : post.content.hashtags.length ≤ 5) :
    OrchestratorAgent.apply_post_guardrails post = post := by
  unfold OrchestratorAgent.apply_post_guardrails
  dsimp only
  split_ifs <;> first | rfl | omega

lemma apply_post_guardrails_image (post : PostResponse) :
    (OrchestratorAgent.apply_post_guardrails post).image = post.image := rfl

/-- Claim C2: every output of `_apply_post_guardrails` satisfies the length
invariants `len(text) <= 280` and `1 <= len(hashtags) <= 5`. -/
theorem apply_post_guardrails_invariant (post : PostResponse) :
    (OrchestratorAgent.apply_post_guardrails post).content.text.length ≤ 280 ∧
    1 ≤ (OrchestratorAgent.apply_post_guardrails post).content.hashtags.length ∧
    (OrchestratorAgent.apply_post_guardrails post).content.hashtags.length ≤ 5 :=
  ⟨apply_post_guardrails_text_le post, apply_post_guardrails_tags_ge post,
    apply_post_guardrails_tags_le post⟩

/-- Claim C8: `_apply_post_guardrails` is idempotent — an already compliant
post is a fixed point, and applying the normalizer twice equals applying it
once for every post. -/
theorem apply_post_guardrails_idem (post : PostResponse)
    (h1 : post.content.text.length ≤ 280)
    (h2 : 1 ≤ post.content.hashtags.length)
    (h3 : post.content.hashtags.length ≤ 5) :
    OrchestratorAgent.apply_post_guardrails post = post ∧
    ∀ q : PostResponse,
      OrchestratorAgent.apply_post_guardrails (OrchestratorAgent.apply_post_guardrails q) =
        OrchestratorAgent.apply_post_guardrails q := by
  refine ⟨apply_post_guardrails_fixed post h1 h2 h3, fun q => ?_⟩
  exact apply_post_guardrails_fixed _ (apply_post_guardrails_text_le q)
    (apply_post_guardrails_tags_ge q) (apply_post_guardrails_tags_le q)

/-- A concrete compliant post used to instantiate hypotheses of the
guardrail theorems. -/
def compliantPost : PostResponse :=
  { id := "p0"
    content := { text := ['h', 'i'], hashtags := ["#post"], call_to_action := none }
    image := none
    inspiration := none
    created_at := 0 }

/-- Witness for claim C8 at the concrete post `compliantPost`. -/
theorem apply_post_guardrails_idem_witness :
    OrchestratorAgent.apply_post_guardrails compliantPost = compliantPost :=
  (apply_post_guardrails_idem compliantPost (by decide) (by decide) (by decide)).1

/-- `PostGenerationRequest.validate_num_proposals` (`app/api/models.py`,
lines 32-37): the pydantic validator raises `ValueError` when the requested
count is outside `[1, 20]`; `Except.error` models the raise. -/
def PostGenerationRequest.validate_num_proposals (v : Int) : Except String Int :=
  if v < 1 ∨ v > 20 then
    Except.error "num_proposals must be between 1 and 20"
  else Except.ok v

/-- `OrchestratorAgent._apply_request_guardrails` (`app/agents/orchestrator.py`,
lines 376-401): raise the count to `settings.min_proposals` when below it,
then lower the (updated) count to `settings.max_proposals` when above it. -/
def OrchestratorAgent.apply_request_guardrails
    (minProposals maxProposals n : Int) : Int :=
  let n1 := if n < minProposals then minProposals else n
  if n1 > maxProposals then maxProposals else n1

/-- Claim C3: a request with `num_proposals = 100` is rejected by the pydantic
validator with `ValueError` before `_apply_request_guardrails` can run, while
the clamp itself (and the repository's own test `test_orchestrator_guardrails`,
which constructs such a request) expects 100 to be clamped to 20.  The clamp,
when reached, is total into `[min_proposals, max_proposals]` = `[10, 20]`. -/
theorem num_proposals_rejected_not_clamped :
    PostGenerationRequest.validate_num_proposals 100 =
      Except.error "num_proposals must be between 1 and 20" ∧
    OrchestratorAgent.apply_request_guardrails 10 20 100 = 20 ∧
    ∀ n : Int, 10 ≤ OrchestratorAgent.apply_request_guardrails 10 20 n ∧
      OrchestratorAgent.apply_request_guardrails 10 20 n ≤ 20 := by
  refine ⟨by norm_num [PostGenerationRequest.validate_num_proposals],
    by norm_num [OrchestratorAgent.apply_request_guardrails], fun n => ?_⟩
  unfold OrchestratorAgent.apply_request_guardrails
  dsimp only
  split_ifs <;> omega

deriving instance DecidableEq for Except

/-- Result dict of `DALLEService.generate_brand_hero_image`
(`app/services/dalle_service.py`, lines 76-80). -/
structure ImageResult where
  image_url : String
  description : String
  prompt_used : String
  deriving DecidableEq, Repr

/-- `DALLEService.generate_scene_description` (`app/services/dalle_service.py`,
lines 86-147): returns the text call's output; when the call raises it
catches the exception and falls back to a simple description, so it never
raises itself. -/
def DALLEService.generate_scene_description (hero : BrandHero)
    (content : PostContent) (textResp : Except String String) : String :=
  match textResp with
  | Except.ok s => s
  | Except.error _ =>
      "A professional image of " ++ hero.name ++ " related to " ++ content.text.asString

/-- The fixed appropriateness/style guardrail block appended to every DALL-E
prompt (`app/services/dalle_service.py`, lines 59-66; whitespace of the
Python literal not reproduced). -/
def dalle_image_guardrail_block : String :=
  "The image should be: Professional and appropriate for business social media; " ++
  "Visually appealing with good composition; Well-lit with clear visibility of the " ++
  "character; Consistent with the brand hero description; Relevant to the post content"

/-- `DALLEService.generate_brand_hero_image` (`app/services/dalle_service.py`,
lines 17-84): one image call; re-raises on failure; on success returns the
url together with the scene prompt and the composed final prompt (persona
description + scene description + guardrail block; whitespace of the Python
literals not reproduced). -/
def DALLEService.generate_brand_hero_image (hero : BrandHero)
    (content : PostContent) (scene_description : Option String)
    (imageResp : Except String String) : Except String ImageResult :=
  let hashtags := String.intercalate " " content.hashtags
  let scene_prompt :=
    match scene_description with
    | some s => s
    | none => "The character is in a scene related to: " ++ content.text.asString ++ " " ++ hashtags
  let base_prompt :=
    "Create a photorealistic image of " ++ hero.name ++ ", who is " ++ hero.appearance ++
    ". Character personality: " ++ hero.personality ++ " Scene context: "
  let final_prompt := base_prompt ++ " " ++ scene_prompt ++ "\n\n" ++ dalle_image_guardrail_block
  match imageResp with
  | Except.error e => Except.error e
  | Except.ok url =>
      Except.ok { image_url := url, description := scene_prompt, prompt_used := final_prompt }

/-- Per-call oracle for one run of `ImageAgent.generate_image`: the agent
text response, the scene-description text call, and the image call. -/
structure ImageEnv where
  agentResp : Except String String
  sceneTextResp : Except String String
  imageResp : Except String String
  deriving DecidableEq, Repr

/-- The fallback image returned by `ImageAgent.generate_image` when any of
its calls raises (`app/agents/image.py`, lines 283-289). -/
def placeholderImage : PostImage :=
  { image_url := "https://via.placeholder.com/1024x1024?text=Image+Generation+Error"
    description := "Error generating image"
    prompt_used := none }

/-- `ImageAgent.generate_image` (`app/agents/image.py`, lines 194-289): an
agent text call, then the scene description, then the image call; any raise
is caught and replaced by `placeholderImage`. -/
def ImageAgent.generate_image (hero : BrandHero) (content : PostContent)
    (env : ImageEnv) : PostImage :=
  match env.agentResp with
  | Except.error _ => placeholderImage
  | Except.ok _ =>
      let scene := DALLEService.generate_scene_description hero content env.sceneTextResp
      match DALLEService.generate_brand_hero_image hero content (some scene) env.imageResp with
      | Except.error _ => placeholderImage
      | Except.ok r =>
          { image_url := r.image_url, description := r.description,
            prompt_used := some r.prompt_used }

/-- Claim C5: `ImageAgent.generate_image` is total (it returns a `PostImage`
for every oracle outcome), and whenever one of its fallible calls fails it
returns the fixed placeholder image instead of propagating the exception. -/
theorem generate_image_fallback (hero : BrandHero) (content : PostContent)
    (env : ImageEnv) :
    (∀ e, env.agentResp = Except.error e →
      ImageAgent.generate_image hero content env = placeholderImage) ∧
    (∀ e, env.imageResp = Except.error e →
      ImageAgent.generate_image hero content env = placeholderImage) ∧
    placeholderImage.image_url =
      "https://via.placeholder.com/1024x1024?text=Image+Generation+Error" ∧
    placeholderImage.description = "Error generating image" := by
  refine ⟨fun e he => ?_, fun e he => ?_, rfl, rfl⟩
  · simp [ImageAgent.generate_image, he]
  · cases hA : env.agentResp with
    | error e2 => simp [ImageAgent.generate_image, hA]
    | ok s => simp [ImageAgent.generate_image, DALLEService.generate_brand_hero_image, hA, he]

/-- A concrete brand hero used by witnesses. -/
def heroW : BrandHero :=
  { name := "Hero", appearance := "tall", personality := "kind", backstory := "b"
    values := ["v"], tone_of_voice := "warm" }

/-- A concrete image-call environment whose image call raises. -/
def failImageEnv : ImageEnv :=
  { agentResp := Except.ok "resp", sceneTextResp := Except.ok "scene"
    imageResp := Except.error "boom" }

/-- Witness for claim C5: the failing image call yields the placeholder. -/
theorem generate_image_fallback_witness :
    ImageAgent.generate_image heroW compliantPost.content failImageEnv = placeholderImage :=
  (generate_image_fallback heroW compliantPost.content failImageEnv).2.1 "boom" rfl

/-- A JSON value, as far as the research agent's report needs it. -/
inductive JValue where
  | str (s : String)
  | obj (fields : List (String × JValue))

/-- Top-level keys of a JSON object. -/
def JValue.keys : JValue → List String
  | JValue.obj fields => fields.map Prod.fst
  | JValue.str _ => []

/-- `ResearchAgent.generate_context_report` (`app/agents/research.py`,
lines 140-225): one generation call; its failure is re-raised; on success the
raw output is JSON-parsed (`parse` models `json.loads`), and a parse failure
is wrapped as an object with the raw response and an error marker. -/
def ResearchAgent.generate_context_report (genResp : Except String String)
    (parse : String → Option JValue) : Except String JValue :=
  match genResp with
  | Except.error e => Except.error e
  | Except.ok response =>
      Except.ok
        (match parse response with
         | some report => report
         | none =>
             JValue.obj [("raw_response", JValue.str response),
               ("error", JValue.str "Failed to parse JSON response")])

/-- Claim C7 counterexample: on a response that fails to parse, the wrapped
report's keys are `raw_response` and `error` (with the fixed message
`"Failed to parse JSON response"` as the parse-error marker) — there is no
`parse_error` key as the claim states. -/
theorem context_report_wrap_counterexample :
    ResearchAgent.generate_context_report (Except.ok "not json") (fun _ => none) =
      Except.ok (JValue.obj [("raw_response", JValue.str "not json"),
        ("error", JValue.str "Failed to parse JSON response")]) ∧
    (JValue.obj [("raw_response", JValue.str "not json"),
      ("error", JValue.str "Failed to parse JSON response")]).keys =
        ["raw_response", "error"] ∧
    "parse_error" ∉ (JValue.obj [("raw_response", JValue.str "not json"),
      ("error", JValue.str "Failed to parse JSON response")]).keys := by
  refine ⟨rfl, rfl, ?_⟩
  simp [JValue.keys]

/-- Claim C7 (amended): `generate_context_report` fails exactly when the
underlying generation call fails (the error is propagated unchanged); when
the call succeeds but its raw output fails to parse, the report is still
returned, wrapped as an object with the raw response and the parse-error
marker under keys `raw_response` and `error`. -/
theorem generate_context_report_spec (genResp : Except String String)
    (parse : String → Option JValue) :
    ((∃ e, ResearchAgent.generate_context_report genResp parse = Except.error e) ↔
      (∃ e, genResp = Except.error e)) ∧
    (∀ e, ResearchAgent.generate_context_report (Except.error e) parse = Except.error e) ∧
    (∀ response, parse response = none →
      ResearchAgent.generate_context_report (Except.ok response) parse =
        Except.ok (JValue.obj [("raw_response", JValue.str response),
          ("error", JValue.str "Failed to parse JSON response")])) ∧
    (∀ response report, parse response = some report →
      ResearchAgent.generate_context_report (Except.ok response) parse =
        Except.ok report) := by
  refine ⟨?_, fun e => rfl, fun response hp => ?_, fun response report hp => ?_⟩
  · cases genResp with
    | error e => simp [ResearchAgent.generate_context_report]
    | ok s => simp [ResearchAgent.generate_context_report]
  · simp [ResearchAgent.generate_context_report, hp]
  · simp [ResearchAgent.generate_context_report, hp]

/-- Witness for claim C7 at a concrete unparseable response. -/
theorem generate_context_report_spec_witness :
    ResearchAgent.generate_context_report (Except.ok "x") (fun _ => none) =
      Except.ok (JValue.obj [("raw_response", JValue.str "x"),
        ("error", JValue.str "Failed to parse JSON response")]) :=
  (generate_context_report_spec (Except.ok "x") (fun _ => none)).2.2.1 "x" rfl

/-- Outcome of one proposal task's environment interaction: the generation
call raised (`genError`), the call succeeded but `json.loads` raised
`JSONDecodeError` on the raw text (`parseError`), or the call succeeded and
parsed as a JSON object whose optional fields are read with defaults
(`parsed`). -/
inductive GenOutcome where
  | genError (e : String)
  | parseError (raw : String)
  | parsed (text : Option String) (hashtags : Option (List String))
      (cta : Option String)
  deriving DecidableEq, Repr

/-- Per-task environment for `_generate_post_proposal`: the generated uuid,
the creation instant, and the task's interaction outcome. -/
structure TaskEnv where
  uuid : String
  now : Nat
  outcome : GenOutcome
  deriving DecidableEq, Repr

/-- The `brief_excerpt` recorded in a proposal's inspiration metadata
(`app/agents/content.py`, line 300): first 100 characters plus `"..."` when
the brief is longer than 100 characters. -/
def brief_excerpt (brief : String) : String :=
  if brief.length > 100 then (brief.toList.take 100).asString ++ "..." else brief

/-- `ContentAgent._generate_post_proposal` (`app/agents/content.py`,
lines 211-321): parse the model response as JSON, fall back to the
deterministic `#fallback` content on `JSONDecodeError`, and to the
`#error` content (with the exception recorded in the inspiration dict) on
any other failure. -/
def ContentAgent.generate_post_proposal (content_brief : String)
    (proposal_num : Nat) (env : TaskEnv) : PostResponse :=
  match env.outcome with
  | GenOutcome.parsed t h c =>
      { id := env.uuid
        content := { text := (t.getD "").toList, hashtags := h.getD [], call_to_action := c }
        image := none
        inspiration := some [("source", "Proposal " ++ toString proposal_num),
          ("brief_excerpt", brief_excerpt content_brief)]
        created_at := env.now }
  | GenOutcome.parseError _ =>
      { id := env.uuid
        content := { text := ("Post proposal #" ++ toString proposal_num).toList
                     hashtags := ["#fallback"], call_to_action := none }
        image := none
        inspiration := some [("source", "Proposal " ++ toString proposal_num),
          ("brief_excerpt", brief_excerpt content_brief)]
        created_at := env.now }
  | GenOutcome.genError e =>
      { id := env.uuid
        content := { text := ("Error generating post content for proposal #" ++
                       toString proposal_num).toList
                     hashtags := ["#error"], call_to_action := none }
        image := none
        inspiration := some [("source", "Error in proposal " ++ toString proposal_num),
          ("error", e)]
        created_at := env.now }

/-- Partition a list into consecutive chunks of three, the last possibly
smaller — the index batching of `generate_post_proposals`
(`app/agents/content.py`, lines 114-127, with `batch_size = 3`). -/
def chunks3 {α : Type} : List α → List (List α)
  | [] => []
  | [a] => [[a]]
  | [a, b] => [[a, b]]
  | a :: b :: c :: rest => [a, b, c] :: chunks3 rest

/-- The 1-based proposal numbers of a request for `n` proposals. -/
def proposal_indices (n : Nat) : List Nat := List.range' 1 n

/-- The batches of proposal numbers processed by `generate_post_proposals`. -/
def proposal_batches (n : Nat) : List (List Nat) := chunks3 (proposal_indices n)

lemma chunks3_flatten {α : Type} (xs : List α) : (chunks3 xs).flatten = xs := by
  induction xs using chunks3.induct <;> simp_all [chunks3]

lemma chunks3_length_le {α : Type} (xs : List α) :
    ∀ B ∈ chunks3 xs, 1 ≤ B.length ∧ B.length ≤ 3 := by
  induction xs using chunks3.induct <;> simp_all [chunks3]

lemma chunks3_full {α : Type} (xs : List α) :
    ∀ k B, (chunks3 xs).get? k = some B → k + 1 < (chunks3 xs).length →
      B.length = 3 := by
  induction xs using chunks3.induct with
  | case1 => simp [chunks3]
  | case2 a => intro k B hB hk; simp [chunks3] at hk
  | case3 a b => intro k B hB hk; simp [chunks3] at hk
  | case4 a b c rest ih =>
      intro k B hB hk
      cases k with
      | zero => simp [chunks3] at hB; subst hB; rfl
      | succ k =>
          simp only [chunks3, List.get?_cons_succ, List.length_cons] at hB hk
          exact ih k B hB (by omega)

/-- The yielded proposals of `ContentAgent.generate_post_proposals` after a
successfully created content brief (`app/agents/content.py`, lines 114-130):
the batched tasks' results, concatenated in batch order (`asyncio.gather`
preserves the order in which the tasks were dispatched). -/
def ContentAgent.proposals_list (content_brief : String) (n : Nat)
    (env : Nat → TaskEnv) : List PostResponse :=
  ((proposal_batches n).map
    (fun B => B.map (fun i => ContentAgent.generate_post_proposal content_brief i (env i)))).flatten

/-- `ContentAgent.generate_post_proposals` (`app/agents/content.py`,
lines 91-134): the content-brief call's failure is re-raised and no proposal
is yielded; otherwise the batched proposal tasks all run and every one of
them yields. -/
def ContentAgent.generate_post_proposals (briefResult : Except String String)
    (n : Nat) (env : Nat → TaskEnv) : Except String (List PostResponse) :=
  match briefResult with
  | Except.error e => Except.error e
  | Except.ok content_brief => Except.ok (ContentAgent.proposals_list content_brief n env)

lemma proposals_list_eq_map (content_brief : String) (n : Nat) (env : Nat → TaskEnv) :
    ContentAgent.proposals_list content_brief n env =
      (List.range' 1 n).map
        (fun i => ContentAgent.generate_post_proposal content_brief i (env i)) := by
  unfold ContentAgent.proposals_list proposal_batches proposal_indices
  rw [← List.map_flatten, chunks3_flatten]

lemma proposals_list_length (content_brief : String) (n : Nat) (env : Nat → TaskEnv) :
    (ContentAgent.proposals_list content_brief n env).length = n := by
  rw [proposals_list_eq_map]; simp

lemma proposals_list_get? (content_brief : String) (n : Nat) (env : Nat → TaskEnv)
    (k : Nat) (hk : k < n) :
    (ContentAgent.proposals_list content_brief n env).get? k =
      some (ContentAgent.generate_post_proposal content_brief (k + 1) (env (k + 1))) := by
  rw [proposals_list_eq_map]
  rw [List.get?_eq_getElem?, List.getElem?_map, List.getElem?_range' 1 1 hk]
  simp [Nat.add_comm]

/-- Claim C1: after a successful brief, a request for `count >= 1` proposals
yields exactly `count` items, slot `k` holding exactly the result of the
independent task for proposal `k+1` (so no task's failure aborts its siblings
in the same batch or later batches); a task whose response fails JSON parsing
yields `text = "Post proposal #<n>"` with `hashtags = ["#fallback"]`, and a
task failing any other way yields `hashtags = ["#error"]` with the error
string recorded in its inspiration metadata. -/
theorem generate_post_proposals_isolation (content_brief : String) (n : Nat)
    (env : Nat → TaskEnv) (hn : 1 ≤ n) :
    ContentAgent.generate_post_proposals (Except.ok content_brief) n env =
      Except.ok (ContentAgent.proposals_list content_brief n env) ∧
    (ContentAgent.proposals_list content_brief n env).length = n ∧
    (∀ k, k < n → (ContentAgent.proposals_list content_brief n env).get? k =
      some (ContentAgent.generate_post_proposal content_brief (k + 1) (env (k + 1)))) ∧
    (∀ i raw env1, env1.outcome = GenOutcome.parseError raw →
      (ContentAgent.generate_post_proposal content_brief i env1).content.text =
        ("Post proposal #" ++ toString i).toList ∧
      (ContentAgent.generate_post_proposal content_brief i env1).content.hashtags =
        ["#fallback"]) ∧
    (∀ i e env1, env1.outcome = GenOutcome.genError e →
      (ContentAgent.generate_post_proposal content_brief i env1).content.hashtags =
        ["#error"] ∧
      (ContentAgent.generate_post_proposal content_brief i env1).inspiration =
        some [("source", "Error in proposal " ++ toString i), ("error", e)]) := by
  refine ⟨rfl, proposals_list_length content_brief n env,
    fun k hk => proposals_list_get? content_brief n env k hk,
    fun i raw env1 h1 => ?_, fun i e env1 h1 => ?_⟩
  · simp [ContentAgent.generate_post_proposal, h1]
  · simp [ContentAgent.generate_post_proposal, h1]

/-- Concrete task environments for the C1 witness: proposal 1 fails JSON
parsing, proposal 2 fails with a raised exception. -/
def failTaskEnv : Nat → TaskEnv
  | 1 => { uuid := "u1", now := 0, outcome := GenOutcome.parseError "oops" }
  | _ => { uuid := "u2", now := 0, outcome := GenOutcome.genError "boom" }

/-- Witness for claim C1 at `count = 2` with both kinds of task failure. -/
theorem generate_post_proposals_isolation_witness :
    (ContentAgent.proposals_list "b" 2 failTaskEnv).length = 2 ∧
    (ContentAgent.generate_post_proposal "b" 1 (failTaskEnv 1)).content.hashtags =
      ["#fallback"] ∧
    (ContentAgent.generate_post_proposal "b" 2 (failTaskEnv 2)).content.hashtags =
      ["#error"] :=
  ⟨(generate_post_proposals_isolation "b" 2 failTaskEnv (by decide)).2.1,
    ((generate_post_proposals_isolation "b" 2 failTaskEnv (by decide)).2.2.2.1
      1 "oops" (failTaskEnv 1) rfl).2,
    ((generate_post_proposals_isolation "b" 2 failTaskEnv (by decide)).2.2.2.2
      2 "boom" (failTaskEnv 2) rfl).1⟩

/-- A wire-level stream event (`StreamResponse` statuses in
`app/api/models.py`, as produced by `generate_posts_stream` in
`app/api/routes.py`). -/
inductive SEvent where
  | started
  | in_progress (post : PostResponse)
  | completed (message : String)
  | error (message : String)
  deriving DecidableEq, Repr

def SEvent.isStarted : SEvent → Bool
  | SEvent.started => true
  | _ => false

def SEvent.isInProgress : SEvent → Bool
  | SEvent.in_progress _ => true
  | _ => false

def SEvent.isTerminal : SEvent → Bool
  | SEvent.completed _ => true
  | SEvent.error _ => true
  | _ => false

/-- `generate_posts_stream` (`app/api/routes.py`, lines 19-59): one `started`
event, one `in_progress` event per proposal the orchestrator yields, then
exactly one terminal event — `completed` when the orchestrator finished
normally, `error e` when it raised `e` (after the proposals already yielded;
the except block fires once and the generator ends).  `num_proposals` is the
validated request count used in the completion message. -/
def generate_posts_stream (num_proposals : Nat) (posts : List PostResponse)
    (interrupt : Option String) : List SEvent :=
  SEvent.started :: posts.map SEvent.in_progress ++
    [match interrupt with
     | none => SEvent.completed
         ("Generated " ++ toString num_proposals ++ " post proposals")
     | some e => SEvent.error e]

lemma stream_countP_started (n : Nat) (posts : List PostResponse)
    (interrupt : Option String) :
    (generate_posts_stream n posts interrupt).countP SEvent.isStarted = 1 := by
  unfold generate_posts_stream
  cases interrupt <;>
    simp [List.countP_cons, List.countP_append, List.countP_map, SEvent.isStarted,
      List.countP_eq_zero, Function.comp]

lemma stream_countP_in_progress (n : Nat) (posts : List PostResponse)
    (interrupt : Option String) :
    (generate_posts_stream n posts interrupt).countP SEvent.isInProgress = posts.length := by
  unfold generate_posts_stream
  cases interrupt <;>
    simp [List.countP_cons, List.countP_append, List.countP_map, SEvent.isInProgress,
      Function.comp, List.countP_eq_length]

lemma stream_countP_terminal (n : Nat) (posts : List PostResponse)
    (interrupt : Option String) :
    (generate_posts_stream n posts interrupt).countP SEvent.isTerminal = 1 := by
  unfold generate_posts_stream
  cases interrupt <;>
    simp [List.countP_cons, List.countP_append, List.countP_map, SEvent.isTerminal,
      List.countP_eq_zero, Function.comp]

lemma stream_filter_in_progress (n : Nat) (posts : List PostResponse)
    (interrupt : Option String) :
    (generate_posts_stream n posts interrupt).filter SEvent.isInProgress =
      posts.map SEvent.in_progress := by
  unfold generate_posts_stream
  cases interrupt <;>
    simp [List.filter_append, List.filter_map, SEvent.isInProgress, Function.comp,
      List.filter_eq_self.mpr, SEvent.isStarted]

/-- `OrchestratorAgent.process_request` (`app/agents/orchestrator.py`,
lines 302-374), after the fatal stages: for each proposal the content agent
yields — in order, one at a time — the image agent attaches an image (or the
placeholder), `_apply_post_guardrails` clamps the content, and the result is
yielded.  `ienv k` is the image agent's oracle for the `k`-th (0-based)
yielded proposal. -/
def OrchestratorAgent.process_request (hero : BrandHero) (content_brief : String)
    (n : Nat) (cenv : Nat → TaskEnv) (ienv : Nat → ImageEnv) : List PostResponse :=
  (ContentAgent.proposals_list content_brief n cenv).mapIdx
    (fun k p => OrchestratorAgent.apply_post_guardrails
      { p with image := some (ImageAgent.generate_image hero p.content (ienv k)) })

lemma process_request_length (hero : BrandHero) (content_brief : String) (n : Nat)
    (cenv : Nat → TaskEnv) (ienv : Nat → ImageEnv) :
    (OrchestratorAgent.process_request hero content_brief n cenv ienv).length = n := by
  unfold OrchestratorAgent.process_request
  rw [List.length_mapIdx, proposals_list_length]

/-- Claim C10: every proposal emitted by `process_request` carries an image:
the image field is always set (to a real or placeholder image) before the
guardrail pass, which leaves it untouched. -/
theorem process_request_image_present (hero : BrandHero) (content_brief : String)
    (n : Nat) (cenv : Nat → TaskEnv) (ienv : Nat → ImageEnv) :
    ∀ p ∈ OrchestratorAgent.process_request hero content_brief n cenv ienv,
      p.image.isSome = true := by
  intro p hp
  unfold OrchestratorAgent.process_request at hp
  rw [List.mem_iff_getElem] at hp
  obtain ⟨k, hk, hp⟩ := hp
  rw [List.getElem_mapIdx] at hp
  rw [← hp, apply_post_guardrails_image]
  rfl

/-- Witness for claim C10: the single proposal of a concrete one-proposal
request carries an image. -/
theorem process_request_image_present_witness :
    ((OrchestratorAgent.process_request heroW "b" 1 failTaskEnv
        (fun _ => failImageEnv)).get
      ⟨0, by rw [process_request_length]; exact Nat.zero_lt_one⟩).image.isSome = true :=
  process_request_image_present heroW "b" 1 failTaskEnv (fun _ => failImageEnv) _
    (List.get_mem _ _ _)

lemma stream_getLast_terminal (n : Nat) (posts : List PostResponse)
    (interrupt : Option String) :
    (generate_posts_stream n posts interrupt).getLast?.map SEvent.isTerminal =
      some true := by
  cases interrupt with
  | none =>
      have h : generate_posts_stream n posts none =
          (SEvent.started :: posts.map SEvent.in_progress) ++
            [SEvent.completed ("Generated " ++ toString n ++ " post proposals")] := rfl
      rw [h, List.getLast?_concat]; rfl
  | some e =>
      have h : generate_posts_stream n posts (some e) =
          (SEvent.started :: posts.map SEvent.in_progress) ++ [SEvent.error e] := rfl
      rw [h, List.getLast?_concat]; rfl

lemma stream_dropLast_no_terminal (n : Nat) (posts : List PostResponse)
    (interrupt : Option String) :
    ((generate_posts_stream n posts interrupt).dropLast).countP SEvent.isTerminal = 0 := by
  cases interrupt with
  | none =>
      have h : generate_posts_stream n posts none =
          (SEvent.started :: posts.map SEvent.in_progress) ++
            [SEvent.completed ("Generated " ++ toString n ++ " post proposals")] := rfl
      rw [h, List.dropLast_concat]
      simp [List.countP_cons, List.countP_map, SEvent.isTerminal, Function.comp,
        List.countP_eq_zero]
  | some e =>
      have h : generate_posts_stream n posts (some e) =
          (SEvent.started :: posts.map SEvent.in_progress) ++ [SEvent.error e] := rfl
      rw [h, List.dropLast_concat]
      simp [List.countP_cons, List.countP_map, SEvent.isTerminal, Function.comp,
        List.countP_eq_zero]

/-- Claim C4: every emitted stream is one `started` event first, then one
`in_progress` event per yielded proposal (exactly `count` of them when the
pipeline runs without a fatal failure), then exactly one terminal event
(`completed` or `error`) and nothing after it; the `in_progress` events
already emitted are the same whether or not a fatal failure follows, so they
are never retracted. -/
theorem stream_event_protocol (n : Nat) (posts : List PostResponse)
    (interrupt : Option String) :
    (generate_posts_stream n posts interrupt).head? = some SEvent.started ∧
    (generate_posts_stream n posts interrupt).countP SEvent.isStarted = 1 ∧
    (generate_posts_stream n posts interrupt).countP SEvent.isInProgress = posts.length ∧
    (generate_posts_stream n posts interrupt).countP SEvent.isTerminal = 1 ∧
    (generate_posts_stream n posts interrupt).getLast?.map SEvent.isTerminal = some true ∧
    ((generate_posts_stream n posts interrupt).dropLast).countP SEvent.isTerminal = 0 ∧
    (generate_posts_stream n posts interrupt).filter SEvent.isInProgress =
      posts.map SEvent.in_progress ∧
    ∀ (hero : BrandHero) (content_brief : String) (cenv : Nat → TaskEnv)
      (ienv : Nat → ImageEnv),
      (generate_posts_stream n
          (OrchestratorAgent.process_request hero content_brief n cenv ienv)
          none).countP SEvent.isInProgress = n := by
  refine ⟨rfl, stream_countP_started n posts interrupt,
    stream_countP_in_progress n posts interrupt,
    stream_countP_terminal n posts interrupt,
    stream_getLast_terminal n posts interrupt,
    stream_dropLast_no_terminal n posts interrupt,
    stream_filter_in_progress n posts interrupt,
    fun hero content_brief cenv ienv => ?_⟩
  rw [stream_countP_in_progress, process_request_length]

/-- Length of the first `k` sublists of `L`, concatenated. -/
def prefixLen {α : Type} (L : List (List α)) (k : Nat) : Nat :=
  ((L.take k).map List.length).sum

lemma prefixLen_zero {α : Type} (L : List (List α)) : prefixLen L 0 = 0 := rfl

lemma prefixLen_succ {α : Type} (L : List (List α)) (k : Nat) (b : List α)
    (hk : L.get? k = some b) :
    prefixLen L (k + 1) = prefixLen L k + b.length := by
  unfold prefixLen
  rw [List.take_succ, ← List.get?_eq_getElem?, hk]
  simp

lemma prefixLen_mono {α : Type} (L : List (List α)) {k1 k2 : Nat} (h : k1 ≤ k2) :
    prefixLen L k1 ≤ prefixLen L k2 := by
  unfold prefixLen
  induction k2 with
  | zero => simp_all
  | succ k ih =>
      rcases Nat.lt_or_ge k1 (k + 1) with hlt | hge
      · refine le_trans (ih (by omega)) ?_
        rw [List.take_succ]
        simp
      · have : k1 = k + 1 := by omega
        subst this
        exact le_refl _

/-- Position of an element of the `k`-th sublist inside the concatenation,
when the element occurs in no earlier sublist. -/
lemma indexOf_flatten {α : Type} [DecidableEq α] (L : List (List α)) (k : Nat)
    (b : List α) (hk : L.get? k = some b) (e : α) (he : e ∈ b)
    (hother : ∀ j bj, j < k → L.get? j = some bj → e ∉ bj) :
    L.flatten.indexOf e = prefixLen L k + b.indexOf e := by
  induction L generalizing k with
  | nil => simp at hk
  | cons c rest ih =>
      cases k with
      | zero =>
          simp only [List.get?] at hk
          injection hk with hk
          subst hk
          rw [List.flatten_cons, List.indexOf_append_of_mem he, prefixLen_zero,
            Nat.zero_add]
      | succ k =>
          have hc : e ∉ c := hother 0 c (Nat.succ_pos k) rfl
          simp only [List.get?_cons_succ] at hk
          rw [List.flatten_cons, List.indexOf_append_of_not_mem hc,
            ih k hk (fun j bj hj hbj => hother (j + 1) bj (by omega) hbj)]
          have : prefixLen (c :: rest) (k + 1) = c.length + prefixLen rest k := by
            unfold prefixLen
            simp
          omega

/-- A scheduling event of the batched generation loop: `dispatch i` is the
creation of the task for proposal `i` (the loop's `batch_tasks.append`),
`settle i` its completion inside `await asyncio.gather(*batch_tasks)`. -/
inductive CEvent where
  | dispatch (i : Nat)
  | settle (i : Nat)
  deriving DecidableEq, Repr

def CEvent.isDispatch : CEvent → Bool
  | CEvent.dispatch _ => true
  | _ => false

def CEvent.isSettle : CEvent → Bool
  | CEvent.settle _ => true
  | _ => false

/-- Scheduling trace of one batch (`app/agents/content.py`, lines 118-126):
all of the batch's tasks are created before the single `gather` call, and
`gather` returns only once every task of the batch has settled. -/
def batch_trace (B : List Nat) : List CEvent :=
  B.map CEvent.dispatch ++ B.map CEvent.settle

/-- Scheduling trace of the whole batched loop: the batches run strictly one
after the other. -/
def gen_trace (n : Nat) : List CEvent :=
  ((proposal_batches n).map batch_trace).flatten

lemma dispatch_mem_batch_trace (i : Nat) (B : List Nat) :
    CEvent.dispatch i ∈ batch_trace B ↔ i ∈ B := by
  simp [batch_trace, List.mem_append, List.mem_map]

lemma settle_mem_batch_trace (i : Nat) (B : List Nat) :
    CEvent.settle i ∈ batch_trace B ↔ i ∈ B := by
  simp [batch_trace, List.mem_append, List.mem_map]

lemma batch_trace_indexOf_dispatch_lt (i : Nat) (B : List Nat) (hi : i ∈ B) :
    (batch_trace B).indexOf (CEvent.dispatch i) < B.length := by
  unfold batch_trace
  rw [List.indexOf_append_of_mem (by simp [List.mem_map]; exact hi)]
  have := List.indexOf_lt_length.mpr (show CEvent.dispatch i ∈ B.map CEvent.dispatch by
    simp [List.mem_map]; exact hi)
  simpa using this

lemma batch_trace_indexOf_settle_ge (j : Nat) (B : List Nat) :
    B.length ≤ (batch_trace B).indexOf (CEvent.settle j) := by
  unfold batch_trace
  rw [List.indexOf_append_of_not_mem (by simp [List.mem_map])]
  simp

lemma batch_trace_length (B : List Nat) : (batch_trace B).length = 2 * B.length := by
  simp [batch_trace]; omega

/-- Distinct batches of one request hold disjoint proposal numbers. -/
lemma proposal_batches_disjoint (n : Nat) : ∀ j k Bj Bk, j < k →
    (proposal_batches n).get? j = some Bj → (proposal_batches n).get? k = some Bk →
    ∀ i ∈ Bj, i ∉ Bk := by
  have hnd : ((proposal_batches n).flatten).Nodup := by
    unfold proposal_batches proposal_indices
    rw [chunks3_flatten]
    exact List.nodup_range' 1 n
  have hpw := (List.nodup_flatten.mp hnd).2
  rw [List.pairwise_iff_get] at hpw
  intro j k Bj Bk hjk hj hk i hij
  rw [List.get?_eq_some] at hj hk
  obtain ⟨hj1, hj2⟩ := hj
  obtain ⟨hk1, hk2⟩ := hk
  have := hpw ⟨j, hj1⟩ ⟨k, hk1⟩ hjk
  rw [hj2, hk2] at this
  exact fun hik => this hij hik

lemma gen_trace_get? (n k : Nat) (B : List Nat)
    (hk : (proposal_batches n).get? k = some B) :
    ((proposal_batches n).map batch_trace).get? k = some (batch_trace B) := by
  rw [List.get?_map, hk]; rfl

/-- Dispatch events of batch `k` sit at offset `prefixLen … k` plus their
index inside the batch trace; the same for settle events. -/
lemma gen_trace_indexOf_dispatch (n k : Nat) (B : List Nat)
    (hk : (proposal_batches n).get? k = some B) (i : Nat) (hi : i ∈ B) :
    (gen_trace n).indexOf (CEvent.dispatch i) =
      prefixLen ((proposal_batches n).map batch_trace) k +
        (batch_trace B).indexOf (CEvent.dispatch i) := by
  refine indexOf_flatten _ k (batch_trace B) (gen_trace_get? n k B hk) _
    ((dispatch_mem_batch_trace i B).mpr hi) ?_
  intro j bj hj hbj
  rw [List.get?_map] at hbj
  cases hBj : (proposal_batches n).get? j with
  | none => rw [hBj] at hbj; simp at hbj
  | some Bj =>
      rw [hBj] at hbj
      injection hbj with hbj
      subst hbj
      rw [dispatch_mem_batch_trace]
      intro hmem
      exact proposal_batches_disjoint n j k Bj B hj hBj hk i hmem hi

lemma gen_trace_indexOf_settle (n k : Nat) (B : List Nat)
    (hk : (proposal_batches n).get? k = some B) (i : Nat) (hi : i ∈ B) :
    (gen_trace n).indexOf (CEvent.settle i) =
      prefixLen ((proposal_batches n).map batch_trace) k +
        (batch_trace B).indexOf (CEvent.settle i) := by
  refine indexOf_flatten _ k (batch_trace B) (gen_trace_get? n k B hk) _
    ((settle_mem_batch_trace i B).mpr hi) ?_
  intro j bj hj hbj
  rw [List.get?_map] at hbj
  cases hBj : (proposal_batches n).get? j with
  | none => rw [hBj] at hbj; simp at hbj
  | some Bj =>
      rw [hBj] at hbj
      injection hbj with hbj
      subst hbj
      rw [settle_mem_batch_trace]
      intro hmem
      exact proposal_batches_disjoint n j k Bj B hj hBj hk i hmem hi

lemma gen_trace_within_batch (n k : Nat) (B : List Nat)
    (hk : (proposal_batches n).get? k = some B) (i j : Nat) (hi : i ∈ B) (hj : j ∈ B) :
    (gen_trace n).indexOf (CEvent.dispatch i) < (gen_trace n).indexOf (CEvent.settle j) := by
  rw [gen_trace_indexOf_dispatch n k B hk i hi, gen_trace_indexOf_settle n k B hk j hj]
  have h1 := batch_trace_indexOf_dispatch_lt i B hi
  have h2 := batch_trace_indexOf_settle_ge j B
  omega

lemma gen_trace_cross_batch (n k1 k2 : Nat) (B1 B2 : List Nat) (h12 : k1 < k2)
    (hk1 : (proposal_batches n).get? k1 = some B1)
    (hk2 : (proposal_batches n).get? k2 = some B2)
    (i j : Nat) (hi : i ∈ B1) (hj : j ∈ B2) :
    (gen_trace n).indexOf (CEvent.settle i) < (gen_trace n).indexOf (CEvent.dispatch j) := by
  rw [gen_trace_indexOf_settle n k1 B1 hk1 i hi,
    gen_trace_indexOf_dispatch n k2 B2 hk2 j hj]
  have hs : (batch_trace B1).indexOf (CEvent.settle i) < (batch_trace B1).length :=
    List.indexOf_lt_length.mpr ((settle_mem_batch_trace i B1).mpr hi)
  have hp := prefixLen_succ ((proposal_batches n).map batch_trace) k1 (batch_trace B1)
    (gen_trace_get? n k1 B1 hk1)
  have hm := prefixLen_mono ((proposal_batches n).map batch_trace)
    (show k1 + 1 ≤ k2 by omega)
  omega

lemma countP_dispatch_map_settle (B : List Nat) (m : Nat) :
    (List.take m (B.map CEvent.settle)).countP CEvent.isDispatch = 0 := by
  rw [List.countP_eq_zero]
  intro a ha
  have h2 := List.mem_of_mem_take ha
  simp only [List.mem_map] at h2
  obtain ⟨x, _, hxa⟩ := h2
  subst hxa
  simp [CEvent.isDispatch]

lemma countP_settle_map_dispatch (B : List Nat) (m : Nat) :
    (List.take m (B.map CEvent.dispatch)).countP CEvent.isSettle = 0 := by
  rw [List.countP_eq_zero]
  intro a ha
  have h2 := List.mem_of_mem_take ha
  simp only [List.mem_map] at h2
  obtain ⟨x, _, hxa⟩ := h2
  subst hxa
  simp [CEvent.isSettle]

lemma batch_trace_countD (B : List Nat) :
    (batch_trace B).countP CEvent.isDispatch = B.length := by
  simp [batch_trace, List.countP_append, List.countP_map, Function.comp_def,
    CEvent.isDispatch, List.countP_true, List.countP_eq_zero]

lemma batch_trace_countS (B : List Nat) :
    (batch_trace B).countP CEvent.isSettle = B.length := by
  simp [batch_trace, List.countP_append, List.countP_map, Function.comp_def,
    CEvent.isSettle, List.countP_true, List.countP_eq_zero]

/-- Within one batch, at most `B.length` tasks are outstanding at any point
of the batch's own trace. -/
lemma outstanding_batch (B : List Nat) (hB : B.length ≤ 3) (m : Nat) :
    ((batch_trace B).take m).countP CEvent.isDispatch ≤
      ((batch_trace B).take m).countP CEvent.isSettle + 3 := by
  unfold batch_trace
  rw [List.take_append_eq_append_take, List.countP_append, List.countP_append]
  have hd1 : (List.take m (B.map CEvent.dispatch)).countP CEvent.isDispatch ≤
      (List.take m (B.map CEvent.dispatch)).length := List.countP_le_length _
  have hd2 : (List.take m (B.map CEvent.dispatch)).length ≤ B.length := by
    rw [List.length_take, List.length_map]; omega
  have h3 := countP_dispatch_map_settle B (m - (B.map CEvent.dispatch).length)
  have h4 := countP_settle_map_dispatch B m
  omega

/-- The batched loop never has more than 3 generation calls outstanding. -/
lemma outstanding_flatten (L : List (List Nat)) (hL : ∀ B ∈ L, B.length ≤ 3)
    (m : Nat) :
    (((L.map batch_trace).flatten).take m).countP CEvent.isDispatch ≤
      (((L.map batch_trace).flatten).take m).countP CEvent.isSettle + 3 := by
  induction L generalizing m with
  | nil => simp
  | cons B rest ih =>
      rw [List.map_cons, List.flatten_cons, List.take_append_eq_append_take,
        List.countP_append, List.countP_append]
      rcases le_or_lt m (batch_trace B).length with hm | hm
      · have hz : m - (batch_trace B).length = 0 := by omega
        rw [hz]
        simp only [List.take_zero, List.countP_nil]
        have := outstanding_batch B (hL B (by simp)) m
        omega
      · rw [List.take_of_length_le (le_of_lt hm)]
        have hD := batch_trace_countD B
        have hS := batch_trace_countS B
        have := ih (fun B2 hB2 => hL B2 (by simp [hB2])) (m - (batch_trace B).length)
        omega

/-- Claim C6: the loop partitions `[1..count]` into consecutive batches of 3
(the last possibly smaller); inside a batch every task is dispatched before
any settles; a later batch's tasks are dispatched only after every task of
each earlier batch has settled; and the number of outstanding generation
calls never exceeds the batch size 3 at any point of the trace. -/
theorem batched_generation_spec (n : Nat) :
    (proposal_batches n).flatten = List.range' 1 n ∧
    (∀ B ∈ proposal_batches n, 1 ≤ B.length ∧ B.length ≤ 3) ∧
    (∀ k B, (proposal_batches n).get? k = some B →
      k + 1 < (proposal_batches n).length → B.length = 3) ∧
    (∀ k B, (proposal_batches n).get? k = some B → ∀ i ∈ B, ∀ j ∈ B,
      (gen_trace n).indexOf (CEvent.dispatch i) <
        (gen_trace n).indexOf (CEvent.settle j)) ∧
    (∀ k1 k2 B1 B2, k1 < k2 → (proposal_batches n).get? k1 = some B1 →
      (proposal_batches n).get? k2 = some B2 → ∀ i ∈ B1, ∀ j ∈ B2,
      (gen_trace n).indexOf (CEvent.settle i) <
        (gen_trace n).indexOf (CEvent.dispatch j)) ∧
    (∀ m, ((gen_trace n).take m).countP CEvent.isDispatch ≤
      ((gen_trace n).take m).countP CEvent.isSettle + 3) := by
  refine ⟨chunks3_flatten _, chunks3_length_le _, chunks3_full _,
    fun k B hk i hi j hj => gen_trace_within_batch n k B hk i j hi hj,
    fun k1 k2 B1 B2 h12 hk1 hk2 i hi j hj =>
      gen_trace_cross_batch n k1 k2 B1 B2 h12 hk1 hk2 i j hi hj,
    fun m => ?_⟩
  exact outstanding_flatten (proposal_batches n)
    (fun B hB => (chunks3_length_le _ B hB).2) m

/-- Witness for claim C6 at `count = 7` (batches `[1,2,3]`, `[4,5,6]`, `[7]`). -/
theorem batched_generation_spec_witness :
    (proposal_batches 7).flatten = List.range' 1 7 ∧
    (gen_trace 7).indexOf (CEvent.settle 3) < (gen_trace 7).indexOf (CEvent.dispatch 4) :=
  ⟨(batched_generation_spec 7).1,
    (batched_generation_spec 7).2.2.2.2.1 0 1 [1, 2, 3] [4, 5, 6] (by omega) rfl rfl
      3 (by decide) 4 (by decide)⟩

/-- An event of the orchestrator's streaming phase for one proposal:
start of its image synthesis, end of its image synthesis, and its emission
(the loop body of `process_request`, `app/agents/orchestrator.py`,
lines 345-370). -/
inductive PEvent where
  | image_start (i : Nat)
  | image_end (i : Nat)
  | emit (i : Nat)
  deriving DecidableEq, Repr

/-- The per-proposal processing steps of the `async for` body, in program
order: await the image call, then yield the guarded post. -/
def proposal_block (i : Nat) : List PEvent :=
  [PEvent.image_start i, PEvent.image_end i, PEvent.emit i]

/-- Processing trace of the `async for` loop of `process_request` over the
proposals in the order the content agent yields them: the loop is
sequential, so the blocks are simply concatenated. -/
def orch_trace (order : List Nat) : List PEvent :=
  (order.map proposal_block).flatten

lemma proposal_block_indexOf_emit (i : Nat) :
    (proposal_block i).indexOf (PEvent.emit i) = 2 := by
  unfold proposal_block
  rw [List.indexOf_cons_ne _ (by simp), List.indexOf_cons_ne _ (by simp),
    List.indexOf_cons_self]

lemma proposal_block_indexOf_start (i : Nat) :
    (proposal_block i).indexOf (PEvent.image_start i) = 0 := by
  unfold proposal_block
  rw [List.indexOf_cons_self]

lemma emit_mem_proposal_block (i a : Nat) :
    PEvent.emit i ∈ proposal_block a ↔ i = a := by
  simp [proposal_block]

lemma start_mem_proposal_block (i a : Nat) :
    PEvent.image_start i ∈ proposal_block a ↔ i = a := by
  simp [proposal_block]

/-- Claim C9 counterexample: for two proposals the processing trace is
strictly sequential — proposal 2 is emitted only after proposal 1's image
synthesis has completed, so proposal 2's emission is blocked by (waits
behind) proposal 1's image synthesis, contrary to the claimed independence. -/
theorem orch_trace_sequential_counterexample :
    orch_trace [1, 2] =
      [PEvent.image_start 1, PEvent.image_end 1, PEvent.emit 1,
        PEvent.image_start 2, PEvent.image_end 2, PEvent.emit 2] ∧
    ¬ ((orch_trace [1, 2]).indexOf (PEvent.emit 2) <
        (orch_trace [1, 2]).indexOf (PEvent.image_end 1)) ∧
    (orch_trace [1, 2]).indexOf (PEvent.image_end 1) <
      (orch_trace [1, 2]).indexOf (PEvent.emit 2) := by
  refine ⟨rfl, by decide, by decide⟩

/-- Claim C9 (amended): during the streaming phase the proposals'
post-generation processing is strictly sequential in yield order — each
proposal's image synthesis and emission complete before the next proposal's
image synthesis even starts, so a slow image synthesis for one proposal
delays the emission of every later proposal. -/
theorem orch_trace_sequential (order : List Nat) (hnd : order.Nodup)
    (k i j : Nat) (hi : order.get? k = some i) (hj : order.get? (k + 1) = some j) :
    (orch_trace order).indexOf (PEvent.emit i) <
      (orch_trace order).indexOf (PEvent.image_start j) := by
  have hinj := List.nodup_iff_injective_get.mp hnd
  rw [List.get?_eq_some] at hi hj
  obtain ⟨hk1, hi2⟩ := hi
  obtain ⟨hk2, hj2⟩ := hj
  have hgetk : order.get? k = some i := List.get?_eq_some.mpr ⟨hk1, hi2⟩
  have hgetk1 : order.get? (k + 1) = some j := List.get?_eq_some.mpr ⟨hk2, hj2⟩
  have hblockk : (order.map proposal_block).get? k = some (proposal_block i) := by
    rw [List.get?_map, hgetk]; rfl
  have hblockk1 : (order.map proposal_block).get? (k + 1) =
      some (proposal_block j) := by
    rw [List.get?_map, hgetk1]; rfl
  have h1 : (orch_trace order).indexOf (PEvent.emit i) =
      prefixLen (order.map proposal_block) k + 2 := by
    unfold orch_trace
    rw [indexOf_flatten (order.map proposal_block) k (proposal_block i) hblockk
      (PEvent.emit i) ((emit_mem_proposal_block i i).mpr rfl) ?_,
      proposal_block_indexOf_emit]
    intro m bm hm hbm
    rw [List.get?_map] at hbm
    cases ha : order.get? m with
    | none => rw [ha] at hbm; simp at hbm
    | some a =>
        rw [ha] at hbm
        injection hbm with hbm
        subst hbm
        rw [emit_mem_proposal_block]
        intro hia
        rw [List.get?_eq_some] at ha
        obtain ⟨hm1, ha2⟩ := ha
        subst hia
        have heq := hinj (show order.get ⟨m, hm1⟩ = order.get ⟨k, hk1⟩ by
          rw [ha2, hi2])
        have hmk : m = k := congrArg Fin.val heq
        omega
  have h2 : (orch_trace order).indexOf (PEvent.image_start j) =
      prefixLen (order.map proposal_block) (k + 1) + 0 := by
    unfold orch_trace
    rw [indexOf_flatten (order.map proposal_block) (k + 1) (proposal_block j) hblockk1
      (PEvent.image_start j) ((start_mem_proposal_block j j).mpr rfl) ?_,
      proposal_block_indexOf_start]
    intro m bm hm hbm
    rw [List.get?_map] at hbm
    cases ha : order.get? m with
    | none => rw [ha] at hbm; simp at hbm
    | some a =>
        rw [ha] at hbm
        injection hbm with hbm
        subst hbm
        rw [start_mem_proposal_block]
        intro hja
        rw [List.get?_eq_some] at ha
        obtain ⟨hm1, ha2⟩ := ha
        subst hja
        have heq := hinj (show order.get ⟨m, hm1⟩ = order.get ⟨k + 1, hk2⟩ by
          rw [ha2, hj2])
        have hmk : m = k + 1 := congrArg Fin.val heq
        omega
  have h3 : prefixLen (order.map proposal_block) (k + 1) =
      prefixLen (order.map proposal_block) k + 3 :=
    prefixLen_succ (order.map proposal_block) k (proposal_block i) hblockk
  omega

/-- Witness for the amended claim C9 on a concrete two-proposal trace. -/
theorem orch_trace_sequential_witness :
    (orch_trace [1, 2]).indexOf (PEvent.emit 1) <
      (orch_trace [1, 2]).indexOf (PEvent.image_start 2) :=
  orch_trace_sequential [1, 2] (by decide) 0 1 2 rfl rfl
